import Mathlib

/-!
The `rn-pdf-reader-js` repository: the `PdfReader` component of `src/index.js`

A shallow embedding of the component's lifecycle method `init`, of `render`,
of the HTML template `viewerHtml` and of the fetch helpers, followed by the
properties proved about them.

Modelling conventions.

* A JavaScript value of Flow type `?string` is an `Option String`; `none`
  stands for `undefined`.  JavaScript truthiness of such a value is `truthy`.
* Side effects (`alert`, `console.error`, the call of `fetchPdfAsync`, the
  calls of the caller's callbacks) are recorded, in order, in a list of
  `Event`s.  The callbacks of the caller are taken to return normally.
* `Platform.OS` is the string the host reports; it is a parameter.
* The network request and the `FileReader` belong to the host; their
  outcomes are the fields of `Env`.
* `require("./bundleContainer").getBundle()` is not part of `src/`; its text
  is the parameter `bundle`.
-/

namespace PdfReader

/-! ## Data model -/

/-- A value thrown or passed to `reject`. -/
abbrev JsError := String

/-- The body of a response (`xhr.response` with `responseType = "blob"`). -/
abbrev Blob := String

/-- The `headers` mapping of a source descriptor. -/
abbrev Headers := List (String × String)

/-- `type Source = { uri?: string, base64?: string, headers }`. -/
structure Source where
  uri : Option String
  base64 : Option String
  headers : Headers
  deriving DecidableEq, Repr

/-- The props read by `init` and `render`.  A callback prop is recorded by
whether the caller supplied it; `style` and `webviewStyle` are uninterpreted
style values. -/
structure Props where
  source : Source
  style : Option String
  webviewStyle : Option String
  onLoad : Bool
  onLoadEnd : Bool
  onError : Bool
  noLoader : Bool
  deriving DecidableEq, Repr

/-- `type State = { ready, android, ios, data?: string }`. -/
structure State where
  ready : Bool
  android : Bool
  ios : Bool
  data : Option String
  deriving DecidableEq, Repr

/-- `state = { ready: false, android: false, ios: false, data: undefined }`. -/
def initialState : State :=
  { ready := false, android := false, ios := false, data := none }

/-- The observable effects of the component, in the order they happen. -/
inductive Event where
  | alert (message : String)
  | consoleError (error : JsError)
  | fetchPdfAsync (source : Source)
  | onLoad
  | onLoadEnd
  deriving DecidableEq, Repr

/-- How an awaited promise ends: resolved, rejected, or never settled. -/
inductive Settled (α : Type) where
  | resolved (value : α)
  | rejected (error : JsError)
  | pending
  deriving DecidableEq, Repr

/-! ## JavaScript primitives -/

/-- Truthiness of a `?string`: defined and not the empty string. -/
def truthy : Option String → Bool
  | some s => decide (s ≠ "")
  | none => false

/-- `s.startsWith(pre)`. -/
def startsWith (s pre : String) : Bool :=
  pre.data.isPrefixOf s.data

/-! ## Fetching (`urlToBlob`, `readAsTextAsync`, `fetchPdfAsync`) -/

/-- What `reader.result` is when `onloadend` fires: a string, or a value of
another type whose `typeof` name is recorded. -/
inductive ReaderResult where
  | string (text : String)
  | other (typeofName : String)
  deriving DecidableEq, Repr

/-- What the `FileReader` does with a blob: `readAsDataURL` throws, or
`onloadend` fires with a result, or nothing ever happens. -/
inductive ReaderRun where
  | threw (error : JsError)
  | loadend (result : ReaderResult)
  | silent
  deriving DecidableEq, Repr

/-- What the `XMLHttpRequest` does: reaches `readyState === 4` with a
response, fires `onerror`, or does neither. -/
inductive XhrRun where
  | done (response : Blob)
  | error (event : JsError)
  | stalled
  deriving DecidableEq, Repr

/-- The host: the outcome of the GET request for a source (its `uri` and
`headers`) and the behaviour of the `FileReader` on a blob. -/
structure Env where
  xhr : Source → XhrRun
  fileReader : Blob → ReaderRun

/-- `readAsTextAsync(mediaBlob)`. -/
def readAsTextAsync (env : Env) (mediaBlob : Blob) : Settled String :=
  match env.fileReader mediaBlob with
  | .threw error => .rejected error
  | .loadend (.string text) => .resolved text
  | .loadend (.other typeofName) =>
      .rejected ("Unable to get result of file due to bad type, waiting string and getting "
        ++ typeofName ++ ".")
  | .silent => .pending

/-- `urlToBlob(source)`. -/
def urlToBlob (env : Env) (source : Source) : Settled Blob :=
  match env.xhr source with
  | .done response => .resolved response
  | .error event => .rejected event
  | .stalled => .pending

/-- `fetchPdfAsync(source)`: `await urlToBlob(source)`, then `readAsTextAsync`. -/
def fetchPdfAsync (env : Env) (source : Source) : Settled String :=
  match urlToBlob env source with
  | .resolved mediaBlob => readAsTextAsync env mediaBlob
  | .rejected error => .rejected error
  | .pending => .pending

/-! ## `init` -/

/-- The way a run of `init` ends: it reaches the final `setState`, it returns
after the alert of the last `else`, it ends in the `catch` block, or it stays
suspended at the `await`. -/
inductive InitExit where
  | completed
  | invalidSource
  | caught
  | awaiting
  deriving DecidableEq, Repr

/-- The result of a run of `init`: how it ended, the component state
afterwards and the effects it had. -/
structure InitResult where
  exit : InitExit
  state : State
  trace : List Event
  deriving DecidableEq, Repr

/-- The test of the first `if` of `init`:
`source.uri && android && (uri.startsWith("http") || ... "file" ... "content")`. -/
def fetchBranch (android : Bool) (source : Source) : Bool :=
  match source.uri with
  | some uri =>
      decide (uri ≠ "") && android &&
        (startsWith uri "http" || startsWith uri "file" || startsWith uri "content")
  | none => false

/-- The test of the second `if`: `source.base64 && source.base64.startsWith("data")`. -/
def base64Branch (source : Source) : Bool :=
  match source.base64 with
  | some base64 => decide (base64 ≠ "") && startsWith base64 "data"
  | none => false

/-- The tail of the `try` block, after the branches have set the locals
`ready` and `data`: `if (onLoad && ready === true) onLoad();` followed by
`this.setState({ ready, data })`.  `before` holds the effects so far. -/
def initFinish (props : Props) (s : State) (before : List Event)
    (ready : Bool) (data : Option String) : InitResult :=
  { exit := .completed
    state := { s with ready := ready, data := data }
    trace := before ++ (if props.onLoad && ready then [Event.onLoad] else []) }

/-- `PdfReader.init`, run in component state `s` on the platform `OS`. -/
def init (OS : String) (env : Env) (props : Props) (s : State) : InitResult :=
  let source := props.source
  let ios := decide (OS = "ios")
  let android := decide (OS = "android")
  -- this.setState({ ios, android })
  let s1 : State := { s with ios := ios, android := android }
  if fetchBranch android source then
    match fetchPdfAsync env source with
    | .resolved data =>
        initFinish props s1 [Event.fetchPdfAsync source] (decide (data ≠ "")) (some data)
    | .rejected error =>
        { exit := .caught
          state := s1
          trace := [Event.fetchPdfAsync source, Event.alert "Sorry, an error occurred.",
                    Event.consoleError error] }
    | .pending =>
        { exit := .awaiting, state := s1, trace := [Event.fetchPdfAsync source] }
  else if base64Branch source then
    initFinish props s1 [] true source.base64
  else if ios then
    initFinish props s1 [] false source.uri
  else
    { exit := .invalidSource, state := s1, trace := [Event.alert "source props is not correct"] }

/-! ## `viewerHtml` -/

/-- The template of `viewerHtml` before `${base64}`. -/
def viewerHtmlHead : String :=
  "\n <!DOCTYPE html>\n <html>\n   <head>\n     <title>PDF reader</title>\n     <meta charset=\"utf-8\" />\n     <meta name=\"viewport\" content=\"width=device-width, minimum-scale=1.0, initial-scale=1.0, maximum-scale=1.0, user-scalable=no\" />\n   </head>\n   <body>\n    <style>\n      body \x7b\n        background-color: #333;\n      \x7d\n      .Reader__container__numbers \x7b\n        background-color: rgba(0,0,0,0);\n      \x7d\n      .Reader__container__numbers__content \x7b\n        background-color: rgba(51,51,51,0.7);\n      \x7d\n      .Reader__container__zoom_container \x7b\n        background-color: rgba(51,51,51,0.7);\n      \x7d\n      .Reader__container__navigate \x7b\n        background-color: rgba(0,0,0);\n      \x7d\n    </style>\n     <div id=\"file\" data-file=\""

/-- The template of `viewerHtml` between `${base64}` and
`${bundleContainer.getBundle()}`. -/
def viewerHtmlMid : String :=
  "\"></div>\n     <div id=\"react-container\"></div>\n     <script type=\"text/javascript\">"

/-- The template of `viewerHtml` after `${bundleContainer.getBundle()}`. -/
def viewerHtmlTail : String :=
  "</script>\n   </body>\n </html>\n"

/-- `viewerHtml(base64)`: the template literal with its two interpolations;
`bundle` is the text `bundleContainer.getBundle()` returns. -/
def viewerHtml (bundle base64 : String) : String :=
  viewerHtmlHead ++ base64 ++ viewerHtmlMid ++ bundle ++ viewerHtmlTail

/-! ## `render` -/

/-- An entry of a `style` array. -/
inductive Style where
  | container
  | webview
  | override (value : Option String)
  deriving DecidableEq, Repr

/-- The `source` prop handed to a `WebView`. -/
inductive WebViewSource where
  | uri (uri : String) (headers : Headers)
  | html (html : String)
  deriving DecidableEq, Repr

/-- The `onLoad` prop handed to a `WebView`: the arrow function created in the
iOS branch, or the caller's own `onLoad` (which may be undefined). -/
inductive LoadHandler where
  | wrapper
  | caller (supplied : Bool)
  deriving DecidableEq, Repr

/-- The props `render` sets on a `WebView` element.  A flag is `false` when the
branch does not set the prop; `onLoadEnd` and `onError` say whether a defined
callback is handed over. -/
structure WebView where
  onLoad : LoadHandler
  onLoadEnd : Bool
  onError : Bool
  allowFileAccess : Bool
  originWhitelist : List String
  style : List Style
  source : WebViewSource
  mixedContentMode : Option String
  scrollEnabled : Bool
  deriving DecidableEq, Repr

/-- A child of the outer `View`. -/
inductive Child where
  | webView (w : WebView)
  | loader
  deriving DecidableEq, Repr

/-- The outer `<View style={[styles.container, style]}>` with its children
(a child expression that evaluates to `false` renders nothing). -/
structure View where
  style : List Style
  children : List Child
  deriving DecidableEq, Repr

/-- The `WebView` of the first branch of `render`. -/
def iosWebView (props : Props) (data : String) : WebView :=
  { onLoad := .wrapper
    onLoadEnd := false
    onError := props.onError
    allowFileAccess := false
    originWhitelist := ["http://*", "https://*", "file://*", "data:*"]
    style := [.webview, .override props.webviewStyle]
    source := .uri data props.source.headers
    mixedContentMode := none
    scrollEnabled := false }

/-- The `WebView` of the second branch of `render`. -/
def androidWebView (bundle : String) (props : Props) (data : String) : WebView :=
  { onLoad := .caller props.onLoad
    onLoadEnd := props.onLoadEnd
    onError := props.onError
    allowFileAccess := true
    originWhitelist := ["http://*", "https://*", "file://*", "data:*"]
    style := [.webview, .override props.webviewStyle]
    source := .html (viewerHtml bundle data)
    mixedContentMode := some "always"
    scrollEnabled := true }

/-- `PdfReader.render`.  In the two `WebView` branches `data` is truthy, hence
a string, and `getD` never falls back. -/
def render (bundle : String) (props : Props) (s : State) : View :=
  if truthy s.data && s.ios then
    { style := [.container, .override props.style]
      children := [.webView (iosWebView props (s.data.getD ""))] }
  else if s.ready && truthy s.data && s.android then
    { style := [.container, .override props.style]
      children := [.webView (androidWebView bundle props (s.data.getD ""))] }
  else
    { style := [.container, .override props.style]
      children := if !props.noLoader && !s.ready then [.loader] else [] }

/-- The `WebView` element of a rendered view, if it has one. -/
def webViewOf (v : View) : Option WebView :=
  v.children.findSome? fun c =>
    match c with
    | .webView w => some w
    | .loader => none

/-- Which of the three trees a rendered view is. -/
inductive Branch where
  | iosDirect
  | androidHtml
  | bare
  deriving DecidableEq, Repr

/-- The branch a rendered view belongs to, read off the view itself. -/
def branchOf (v : View) : Branch :=
  match webViewOf v with
  | some w =>
      match w.source with
      | .uri _ _ => .iosDirect
      | .html _ => .androidHtml
  | none => .bare

/-! ## The load event of the rendered `WebView` -/

/-- The arrow function the iOS branch passes as `onLoad`:
`this.setState({ ready: true })`, then `onLoad()` and `onLoadEnd()` when defined. -/
def iosOnLoad (props : Props) (s : State) : State × List Event :=
  ({ s with ready := true },
    (if props.onLoad then [Event.onLoad] else []) ++
    (if props.onLoadEnd then [Event.onLoadEnd] else []))

/-- The `WebView` that `render` produced for `s` reports a load: its `onLoad`
prop is called.  `none` when `render` produced no `WebView`. -/
def fireLoad (bundle : String) (props : Props) (s : State) : Option (State × List Event) :=
  match webViewOf (render bundle props s) with
  | none => none
  | some w =>
      match w.onLoad with
      | .wrapper => some (iosOnLoad props s)
      | .caller supplied => some (s, if supplied then [Event.onLoad] else [])

/-- The component lifecycle: `init` at mount, then the load event of whatever
`WebView` `render` produces for the resulting state. -/
def lifecycle (OS bundle : String) (env : Env) (props : Props) : State × List Event :=
  let r := init OS env props initialState
  match fireLoad bundle props r.state with
  | some (s, tr) => (s, r.trace ++ tr)
  | none => (r.state, r.trace)

/-- The number of calls of the caller's `onLoad` in a trace. -/
def onLoadCalls (tr : List Event) : Nat :=
  tr.count Event.onLoad

/-- The component states reachable on platform `OS`: the state at mount, the
state after the first `setState` of `init`, the state a run of `init` leaves,
and the state after a load event of the rendered `WebView`. -/
inductive Reachable (OS bundle : String) : State → Prop where
  | mount : Reachable OS bundle initialState
  | flags (s : State) :
      Reachable OS bundle s →
      Reachable OS bundle { s with ios := decide (OS = "ios"), android := decide (OS = "android") }
  | init (env : Env) (props : Props) (s : State) :
      Reachable OS bundle s → Reachable OS bundle (init OS env props s).state
  | load (props : Props) (s s1 : State) (tr : List Event) :
      Reachable OS bundle s → fireLoad bundle props s = some (s1, tr) →
      Reachable OS bundle s1

/-- The states that load events of the rendered `WebView` lead to from `s`. -/
inductive LoadReach (bundle : String) (s : State) : State → Prop where
  | refl : LoadReach bundle s s
  | step (props : Props) (s1 s2 : State) (tr : List Event) :
      LoadReach bundle s s1 → fireLoad bundle props s1 = some (s2, tr) →
      LoadReach bundle s s2

/-! ## Observations on traces -/

/-- The number of `alert` calls in a trace. -/
def alerts (tr : List Event) : Nat :=
  (tr.filter fun e =>
    match e with
    | .alert _ => true
    | _ => false).length

/-- The values logged with `console.error`, in order. -/
def consoleErrors (tr : List Event) : List JsError :=
  tr.filterMap fun e =>
    match e with
    | .consoleError error => some error
    | _ => none

/-- The arguments of the calls of `fetchPdfAsync`, in order. -/
def fetchCalls (tr : List Event) : List Source :=
  tr.filterMap fun e =>
    match e with
    | .fetchPdfAsync source => some source
    | _ => none

/-! ## The conditions on a source descriptor, in the words of the specification -/

/-- The uri starts with "http", "file" or "content". -/
def HasScheme (uri : String) : Prop :=
  startsWith uri "http" = true ∨ startsWith uri "file" = true ∨
    startsWith uri "content" = true

/-- The source triggers the Android fetch: the platform is Android and the
uri is non-empty and starts with "http", "file" or "content". -/
def AndroidFetch (OS : String) (source : Source) : Prop :=
  OS = "android" ∧ ∃ uri, source.uri = some uri ∧ uri ≠ "" ∧ HasScheme uri

/-- The base64 field is a string starting with "data". -/
def ValidBase64 (source : Source) : Prop :=
  ∃ b, source.base64 = some b ∧ startsWith b "data" = true

/-- No usable locator: the uri is absent or empty, or on Android it starts
with none of "http", "file", "content". -/
def NoUsableLocator (OS : String) (source : Source) : Prop :=
  source.uri = none ∨ source.uri = some "" ∨
    (OS = "android" ∧ ∃ uri, source.uri = some uri ∧ ¬ HasScheme uri)

/-- No embedded payload: base64 is absent or does not start with "data". -/
def NoEmbeddedPayload (source : Source) : Prop :=
  source.base64 = none ∨ ∃ b, source.base64 = some b ∧ startsWith b "data" = false

/-! ## Concrete inputs used in the examples -/

/-- A host whose request succeeds and whose reader yields a data URL. -/
def hostUp : Env :=
  { xhr := fun _ => .done "%PDF-1.4"
    fileReader := fun _ => .loadend (.string "data:application/pdf;base64,JVBERi0xLjQ=") }

/-- A host whose request fires `onerror`. -/
def hostDown : Env :=
  { xhr := fun _ => .error "Network request failed"
    fileReader := fun _ => .silent }

/-- Props with the given source, an `onLoad` callback and nothing else. -/
def propsOf (source : Source) : Props :=
  { source := source, style := none, webviewStyle := none,
    onLoad := true, onLoadEnd := false, onError := false, noLoader := false }

/-- A source with an embedded payload only. -/
def embeddedSource : Source :=
  { uri := none, base64 := some "data:application/pdf;base64,JVBERi0xLjQ=", headers := [] }

/-- A source with a remote locator only. -/
def remoteSource : Source :=
  { uri := some "https://example.org/a.pdf", base64 := none, headers := [] }

/-- A source with neither a locator nor a payload. -/
def emptySource : Source :=
  { uri := none, base64 := none, headers := [] }

/-! ## The invariant of the reachable states -/

/-- On platform `OS`: a platform flag that is set names the platform, and a
ready state has truthy data and both flags set from the platform. -/
def Inv (OS : String) (s : State) : Prop :=
  (s.ios = true → OS = "ios") ∧ (s.android = true → OS = "android") ∧
  (s.ready = true →
    truthy s.data = true ∧ s.ios = decide (OS = "ios") ∧ s.android = decide (OS = "android"))

/-! ## Reading the payload back from the generated HTML -/

/-- The opening of the element that carries the payload, up to the quote that
opens the `data-file` attribute. -/
def fileDivOpen : String := "<div id=\"file\" data-file=\""

/-- The rest of that element, from the quote that closes the attribute. -/
def fileDivClose : String := "\"></div>"

/-- The element `<div id="file" data-file="p"></div>`. -/
def fileDiv (p : String) : String :=
  fileDivOpen ++ p ++ fileDivClose

/-- The opening tag of the script element of the template. -/
def scriptOpen : String := "<script type=\"text/javascript\">"

/-- The closing tag of the script element. -/
def scriptClose : String := "</script>"

/-- What follows the first occurrence of `pat` in a text, if `pat` occurs. -/
def afterFirst (pat : List Char) : List Char → Option (List Char)
  | [] => if pat.isEmpty then some [] else none
  | c :: cs =>
      if pat.isPrefixOf (c :: cs) then some ((c :: cs).drop pat.length)
      else afterFirst pat cs

/-- The number of positions of a text at which `pat` occurs. -/
def occurrences (pat : List Char) : List Char → Nat
  | [] => 0
  | c :: cs => (if pat.isPrefixOf (c :: cs) then 1 else 0) + occurrences pat cs

/-- The text between the first occurrence of `data-file="` in a document and
the next double quote; `none` when either is missing. -/
def dataFileAttribute (html : String) : Option String :=
  match afterFirst "data-file=\"".data html.data with
  | none => none
  | some rest =>
      if '"' ∈ rest then some (String.mk (rest.takeWhile fun c => c != '"')) else none

/-- Whether `pat` occurs in `pre ++ pat` at a position inside `pre`. -/
def startsInside (pat : List Char) : List Char → Bool
  | [] => false
  | c :: cs => pat.isPrefixOf (c :: cs ++ pat) || startsInside pat cs

/-- The template text before the element that carries the payload. -/
def beforeFileDiv : String :=
  "\n <!DOCTYPE html>\n <html>\n   <head>\n     <title>PDF reader</title>\n     <meta charset=\"utf-8\" />\n     <meta name=\"viewport\" content=\"width=device-width, minimum-scale=1.0, initial-scale=1.0, maximum-scale=1.0, user-scalable=no\" />\n   </head>\n   <body>\n    <style>\n      body \x7b\n        background-color: #333;\n      \x7d\n      .Reader__container__numbers \x7b\n        background-color: rgba(0,0,0,0);\n      \x7d\n      .Reader__container__numbers__content \x7b\n        background-color: rgba(51,51,51,0.7);\n      \x7d\n      .Reader__container__zoom_container \x7b\n        background-color: rgba(51,51,51,0.7);\n      \x7d\n      .Reader__container__navigate \x7b\n        background-color: rgba(0,0,0);\n      \x7d\n    </style>\n     "

/-- The template text between the payload element and the script element. -/
def betweenFileDivAndScript : String :=
  "\n     <div id=\"react-container\"></div>\n     "

/-- The template text after the script element. -/
def afterScript : String := "\n   </body>\n </html>\n"

/-! # Theorems -/

/-! ## Auxiliary facts -/

theorem truthy_eq_true_iff (o : Option String) :
    truthy o = true ↔ ∃ d, o = some d ∧ d ≠ "" := by
  cases o with
  | none => simp [truthy]
  | some d => simp [truthy]

theorem startsWith_ne_empty (s pre : String) (hpre : pre ≠ "")
    (h : startsWith s pre = true) : s ≠ "" := by
  intro hs
  subst hs
  apply hpre
  have h1 : pre.data.isPrefixOf ([] : List Char) = true := h
  have h2 : pre.data = [] := by
    cases hd : pre.data with
    | nil => rfl
    | cons c cs => rw [hd] at h1; simp [List.isPrefixOf] at h1
  exact String.ext h2

theorem webViewOf_render (bundle : String) (props : Props) (s : State) :
    webViewOf (render bundle props s) =
      if truthy s.data = true ∧ s.ios = true then
        some (iosWebView props (s.data.getD ""))
      else if s.ready = true ∧ truthy s.data = true ∧ s.android = true then
        some (androidWebView bundle props (s.data.getD ""))
      else none := by
  obtain ⟨ready, android, ios, data⟩ := s
  cases ready <;> cases android <;> cases ios <;> cases hd : truthy data <;>
    cases hn : props.noLoader <;> simp [render, webViewOf, hd, hn]

theorem children_render (bundle : String) (props : Props) (s : State) :
    (render bundle props s).children =
      if truthy s.data = true ∧ s.ios = true then
        [Child.webView (iosWebView props (s.data.getD ""))]
      else if s.ready = true ∧ truthy s.data = true ∧ s.android = true then
        [Child.webView (androidWebView bundle props (s.data.getD ""))]
      else if props.noLoader = false ∧ s.ready = false then [Child.loader]
      else [] := by
  obtain ⟨ready, android, ios, data⟩ := s
  cases ready <;> cases android <;> cases ios <;> cases hd : truthy data <;>
    cases hn : props.noLoader <;> simp [render, hd, hn]

/-! ## The branches of `render` -/

/-- C7: `render` picks one of three trees, and which one depends on the state
fields `ios`, `android`, `ready`, `data` only, not on the props.  The tree is
the iOS `WebView`, whose source points at `data` directly (`uri: data`, with
the headers of the source descriptor), exactly when `data` is truthy and `ios`
holds, whatever `ready` is; otherwise it is the Android `WebView` with source
`html: viewerHtml(data)` exactly when `ready`, truthy `data` and `android`
hold; otherwise it is the bare container, which has no `WebView`.  A view never
has more than one child. -/
theorem render_three_branches (bundle : String) (props : Props) (s : State) :
    (∀ q : Props, branchOf (render bundle q s) = branchOf (render bundle props s)) ∧
    (branchOf (render bundle props s) = Branch.iosDirect ↔
      (truthy s.data = true ∧ s.ios = true)) ∧
    (∀ r : Bool, truthy s.data = true → s.ios = true →
      branchOf (render bundle props { s with ready := r }) = Branch.iosDirect) ∧
    (branchOf (render bundle props s) = Branch.androidHtml ↔
      (¬ (truthy s.data = true ∧ s.ios = true) ∧
        s.ready = true ∧ truthy s.data = true ∧ s.android = true)) ∧
    (branchOf (render bundle props s) = Branch.bare ↔
      (¬ (truthy s.data = true ∧ s.ios = true) ∧
        ¬ (s.ready = true ∧ truthy s.data = true ∧ s.android = true))) ∧
    (branchOf (render bundle props s) = Branch.iosDirect →
      ∃ d w, s.data = some d ∧ (render bundle props s).children = [Child.webView w] ∧
        w.source = WebViewSource.uri d props.source.headers) ∧
    (branchOf (render bundle props s) = Branch.androidHtml →
      ∃ d w, s.data = some d ∧ (render bundle props s).children = [Child.webView w] ∧
        w.source = WebViewSource.html (viewerHtml bundle d)) ∧
    (branchOf (render bundle props s) = Branch.bare →
      ∀ w, Child.webView w ∉ (render bundle props s).children) ∧
    (render bundle props s).children.length ≤ 1 := by
  have key : ∀ q : Props, branchOf (render bundle q s) =
      if truthy s.data = true ∧ s.ios = true then Branch.iosDirect
      else if s.ready = true ∧ truthy s.data = true ∧ s.android = true then Branch.androidHtml
      else Branch.bare := by
    intro q
    unfold branchOf
    rw [webViewOf_render]
    by_cases h1 : truthy s.data = true ∧ s.ios = true
    · simp [h1, iosWebView]
    · by_cases h2 : s.ready = true ∧ truthy s.data = true ∧ s.android = true
      · simp only [if_neg h1, if_pos h2, androidWebView]
      · simp only [if_neg h1, if_neg h2]
  have hch := children_render bundle props s
  have hios : ∀ r : Bool, truthy s.data = true → s.ios = true →
      branchOf (render bundle props { s with ready := r }) = Branch.iosDirect := by
    intro r hd hi
    unfold branchOf
    rw [webViewOf_render]
    simp [hd, hi, iosWebView]
  have hlen : (render bundle props s).children.length ≤ 1 := by
    rw [hch]
    split_ifs <;> simp
  refine ⟨fun q => by rw [key q, key props], ?_, hios, ?_, ?_, ?_, ?_, ?_, hlen⟩
  all_goals rw [key props]
  all_goals by_cases h1 : truthy s.data = true ∧ s.ios = true
  all_goals try rw [if_pos h1]
  all_goals try rw [if_neg h1]
  all_goals by_cases h2 : s.ready = true ∧ truthy s.data = true ∧ s.android = true
  all_goals try rw [if_pos h2]
  all_goals try rw [if_neg h2]
  -- iOS exactly when
  · exact ⟨fun _ => h1, fun _ => rfl⟩
  · exact ⟨fun _ => h1, fun _ => rfl⟩
  · exact ⟨fun h => Branch.noConfusion h, fun h => absurd h h1⟩
  · exact ⟨fun h => Branch.noConfusion h, fun h => absurd h h1⟩
  -- Android exactly when
  · exact ⟨fun h => Branch.noConfusion h, fun h => absurd h1 h.1⟩
  · exact ⟨fun h => Branch.noConfusion h, fun h => absurd h1 h.1⟩
  · exact ⟨fun _ => ⟨h1, h2⟩, fun _ => rfl⟩
  · exact ⟨fun h => Branch.noConfusion h, fun h => absurd h.2 h2⟩
  -- bare exactly when
  · exact ⟨fun h => Branch.noConfusion h, fun h => absurd h1 h.1⟩
  · exact ⟨fun h => Branch.noConfusion h, fun h => absurd h1 h.1⟩
  · exact ⟨fun h => Branch.noConfusion h, fun h => absurd h2 h.2⟩
  · exact ⟨fun _ => ⟨h1, h2⟩, fun _ => rfl⟩
  -- the iOS source
  · intro _
    obtain ⟨d, hd, _⟩ := (truthy_eq_true_iff s.data).1 h1.1
    refine ⟨d, iosWebView props d, hd, ?_, rfl⟩
    rw [hch, if_pos h1, hd]
    rfl
  · intro _
    obtain ⟨d, hd, _⟩ := (truthy_eq_true_iff s.data).1 h1.1
    refine ⟨d, iosWebView props d, hd, ?_, rfl⟩
    rw [hch, if_pos h1, hd]
    rfl
  · exact fun h => Branch.noConfusion h
  · exact fun h => Branch.noConfusion h
  -- the Android source
  · exact fun h => Branch.noConfusion h
  · exact fun h => Branch.noConfusion h
  · intro _
    obtain ⟨d, hd, _⟩ := (truthy_eq_true_iff s.data).1 h2.2.1
    refine ⟨d, androidWebView bundle props d, hd, ?_, rfl⟩
    rw [hch, if_neg h1, if_pos h2, hd]
    rfl
  · exact fun h => Branch.noConfusion h
  -- the bare container
  · exact fun h => Branch.noConfusion h
  · exact fun h => Branch.noConfusion h
  · exact fun h => Branch.noConfusion h
  · intro _ w hw
    rw [hch, if_neg h1, if_neg h2] at hw
    by_cases h3 : props.noLoader = false ∧ s.ready = false
    · rw [if_pos h3] at hw; simp at hw
    · rw [if_neg h3] at hw; simp at hw

/-! ## Facts about `init` -/

theorem fetchBranch_iff (OS : String) (source : Source) :
    fetchBranch (decide (OS = "android")) source = true ↔ AndroidFetch OS source := by
  unfold fetchBranch AndroidFetch HasScheme
  cases hu : source.uri with
  | none => simp
  | some uri =>
      simp only [Bool.and_eq_true, Bool.or_eq_true, decide_eq_true_eq, Option.some.injEq]
      constructor
      · rintro ⟨⟨h1, h2⟩, h3⟩
        exact ⟨h2, uri, rfl, h1, by simpa [or_assoc] using h3⟩
      · rintro ⟨h2, u, rfl, h1, h3⟩
        exact ⟨⟨h1, h2⟩, by simpa [or_assoc] using h3⟩

theorem base64Branch_iff (source : Source) :
    base64Branch source = true ↔ ValidBase64 source := by
  unfold base64Branch ValidBase64
  cases hb : source.base64 with
  | none => simp
  | some b =>
      simp only [Bool.and_eq_true, decide_eq_true_eq, Option.some.injEq]
      constructor
      · rintro ⟨_, h⟩
        exact ⟨b, rfl, h⟩
      · rintro ⟨c, rfl, h⟩
        exact ⟨startsWith_ne_empty b "data" (by decide) h, h⟩

theorem not_androidFetch_of_noUsableLocator (OS : String) (source : Source)
    (h : NoUsableLocator OS source) : ¬ AndroidFetch OS source := by
  rintro ⟨_, uri, hu, hne, hs⟩
  rcases h with h | h | ⟨_, u, hu2, hns⟩
  · rw [h] at hu; cases hu
  · rw [h] at hu; cases hu; exact hne rfl
  · rw [hu] at hu2; cases hu2; exact hns hs

theorem not_validBase64_of_noEmbeddedPayload (source : Source)
    (h : NoEmbeddedPayload source) : ¬ ValidBase64 source := by
  rintro ⟨b, hb, hs⟩
  rcases h with h | ⟨c, hc, hcs⟩
  · rw [h] at hb; cases hb
  · rw [hb] at hc; cases hc; rw [hs] at hcs; cases hcs

theorem init_of_fetch (OS : String) (env : Env) (props : Props) (s : State)
    (h : AndroidFetch OS props.source) :
    init OS env props s =
      match fetchPdfAsync env props.source with
      | .resolved data =>
          initFinish props { s with ios := decide (OS = "ios"), android := decide (OS = "android") }
            [Event.fetchPdfAsync props.source] (decide (data ≠ "")) (some data)
      | .rejected error =>
          { exit := .caught
            state := { s with ios := decide (OS = "ios"), android := decide (OS = "android") }
            trace := [Event.fetchPdfAsync props.source, Event.alert "Sorry, an error occurred.",
                      Event.consoleError error] }
      | .pending =>
          { exit := .awaiting
            state := { s with ios := decide (OS = "ios"), android := decide (OS = "android") }
            trace := [Event.fetchPdfAsync props.source] } := by
  have hf := (fetchBranch_iff OS props.source).2 h
  simp only [init, hf, if_true]

theorem init_of_base64 (OS : String) (env : Env) (props : Props) (s : State)
    (hf : ¬ AndroidFetch OS props.source) (hb : ValidBase64 props.source) :
    init OS env props s =
      initFinish props { s with ios := decide (OS = "ios"), android := decide (OS = "android") }
        [] true props.source.base64 := by
  have h1 : fetchBranch (decide (OS = "android")) props.source = false := by
    cases h : fetchBranch (decide (OS = "android")) props.source
    · rfl
    · exact absurd ((fetchBranch_iff OS props.source).1 h) hf
  have h2 := (base64Branch_iff props.source).2 hb
  simp only [init, h1, h2, if_true, Bool.false_eq_true, if_false]

theorem init_of_ios (env : Env) (props : Props) (s : State)
    (hb : ¬ ValidBase64 props.source) :
    init "ios" env props s =
      initFinish props { s with ios := true, android := false } [] false props.source.uri := by
  have h1 : fetchBranch (decide ("ios" = "android")) props.source = false := by
    cases h : fetchBranch (decide ("ios" = "android")) props.source
    · rfl
    · exact absurd ((fetchBranch_iff "ios" props.source).1 h).1 (by decide)
  have h2 : base64Branch props.source = false := by
    cases h : base64Branch props.source
    · rfl
    · exact absurd ((base64Branch_iff props.source).1 h) hb
  simp only [init, h1, h2, Bool.false_eq_true, if_false]
  simp

theorem init_of_invalid (OS : String) (env : Env) (props : Props) (s : State)
    (hf : ¬ AndroidFetch OS props.source) (hb : ¬ ValidBase64 props.source)
    (hi : OS ≠ "ios") :
    init OS env props s =
      { exit := .invalidSource
        state := { s with ios := decide (OS = "ios"), android := decide (OS = "android") }
        trace := [Event.alert "source props is not correct"] } := by
  have h1 : fetchBranch (decide (OS = "android")) props.source = false := by
    cases h : fetchBranch (decide (OS = "android")) props.source
    · rfl
    · exact absurd ((fetchBranch_iff OS props.source).1 h) hf
  have h2 : base64Branch props.source = false := by
    cases h : base64Branch props.source
    · rfl
    · exact absurd ((base64Branch_iff props.source).1 h) hb
  simp only [init, h1, h2, Bool.false_eq_true, if_false]
  simp [hi]

theorem hasScheme_ne_empty (uri : String) (h : HasScheme uri) : uri ≠ "" := by
  rcases h with h | h | h
  · exact startsWith_ne_empty uri "http" (by decide) h
  · exact startsWith_ne_empty uri "file" (by decide) h
  · exact startsWith_ne_empty uri "content" (by decide) h

theorem no_webView_of_no_platform (bundle : String) (props : Props) (t : State)
    (hi : t.ios = false) (ha : t.android = false) :
    (render bundle props t).children =
      if props.noLoader = false ∧ t.ready = false then [Child.loader] else [] := by
  rw [children_render]
  simp [hi, ha]

/-! ## Source resolution in `init` -/

/-- C9: `init` resolves the source by a fixed precedence.  It calls
`fetchPdfAsync` if and only if the platform is Android and the uri is
non-empty and starts with "http", "file" or "content" (once, with the source
descriptor); when the fetch resolves with a string, `data` is that string and
`ready` is whether it is non-empty, whatever base64 holds.  Otherwise, if
base64 starts with "data", `data` is base64 and `ready` is true.  Otherwise, on
iOS, `data` is the uri and `ready` is false, without an alert.  Otherwise
`init` alerts and leaves `ready` and `data` as they were.  The caller's
`onLoad` is invoked by `init`, once, exactly when `init` reaches its end with
`ready` true (and a callback was supplied). -/
theorem init_precedence (OS : String) (env : Env) (props : Props) (s : State) :
    ((∃ src, Event.fetchPdfAsync src ∈ (init OS env props s).trace) ↔
      AndroidFetch OS props.source) ∧
    (AndroidFetch OS props.source →
      fetchCalls (init OS env props s).trace = [props.source]) ∧
    (AndroidFetch OS props.source → ∀ d, fetchPdfAsync env props.source = .resolved d →
      (init OS env props s).state.data = some d ∧
      (init OS env props s).state.ready = decide (d ≠ "") ∧
      (init OS env props s).exit = InitExit.completed) ∧
    (¬ AndroidFetch OS props.source → ∀ b, props.source.base64 = some b →
      startsWith b "data" = true →
      (init OS env props s).state.data = some b ∧
      (init OS env props s).state.ready = true ∧
      (init OS env props s).exit = InitExit.completed) ∧
    (¬ AndroidFetch OS props.source → ¬ ValidBase64 props.source → OS = "ios" →
      (init OS env props s).state.data = props.source.uri ∧
      (init OS env props s).state.ready = false ∧
      (init OS env props s).exit = InitExit.completed ∧
      alerts (init OS env props s).trace = 0) ∧
    (¬ AndroidFetch OS props.source → ¬ ValidBase64 props.source → OS ≠ "ios" →
      alerts (init OS env props s).trace = 1 ∧
      (init OS env props s).state.ready = s.ready ∧
      (init OS env props s).state.data = s.data ∧
      (init OS env props s).exit = InitExit.invalidSource) ∧
    onLoadCalls (init OS env props s).trace =
      (if props.onLoad = true ∧ (init OS env props s).exit = InitExit.completed ∧
          (init OS env props s).state.ready = true then 1 else 0) := by
  by_cases hf : AndroidFetch OS props.source
  · have hi := init_of_fetch OS env props s hf
    cases hp : fetchPdfAsync env props.source with
    | resolved d =>
        rw [hp] at hi
        simp only [] at hi
        rw [hi]
        refine ⟨⟨fun _ => hf, fun _ => ⟨props.source, by simp [initFinish]⟩⟩, ?_, ?_, ?_, ?_, ?_, ?_⟩
        · intro _
          cases ho : props.onLoad <;> by_cases hd : d = "" <;>
            simp [initFinish, fetchCalls, ho, hd]
        · intro _ d2 hd2
          cases hd2
          simp [initFinish]
        · exact fun h => absurd hf h
        · exact fun h => absurd hf h
        · exact fun h => absurd hf h
        · cases ho : props.onLoad <;> by_cases hd : d = "" <;>
            simp [initFinish, onLoadCalls, ho, hd]
    | rejected e =>
        rw [hp] at hi
        simp only [] at hi
        rw [hi]
        refine ⟨⟨fun _ => hf, fun _ => ⟨props.source, by simp⟩⟩, ?_, ?_, ?_, ?_, ?_, ?_⟩
        · intro _; simp [fetchCalls]
        · intro _ d2 hd2; cases hd2
        · exact fun h => absurd hf h
        · exact fun h => absurd hf h
        · exact fun h => absurd hf h
        · simp [onLoadCalls]
    | pending =>
        rw [hp] at hi
        simp only [] at hi
        rw [hi]
        refine ⟨⟨fun _ => hf, fun _ => ⟨props.source, by simp⟩⟩, ?_, ?_, ?_, ?_, ?_, ?_⟩
        · intro _; simp [fetchCalls]
        · intro _ d2 hd2; cases hd2
        · exact fun h => absurd hf h
        · exact fun h => absurd hf h
        · exact fun h => absurd hf h
        · simp [onLoadCalls]
  · by_cases hb : ValidBase64 props.source
    · rw [init_of_base64 OS env props s hf hb]
      refine ⟨⟨?_, fun h => absurd h hf⟩, fun h => absurd h hf, fun h => absurd h hf,
        ?_, fun _ h => absurd hb h, fun _ h => absurd hb h, ?_⟩
      · rintro ⟨src, hsrc⟩
        cases ho : props.onLoad <;> simp [initFinish, ho] at hsrc
      · intro _ b hb1 _
        simp [initFinish, hb1]
      · cases ho : props.onLoad <;> simp [initFinish, onLoadCalls, ho]
    · by_cases hi : OS = "ios"
      · subst hi
        rw [init_of_ios env props s hb]
        refine ⟨⟨?_, fun h => absurd h hf⟩, fun h => absurd h hf, fun h => absurd h hf,
          ?_, ?_, fun _ _ h => absurd rfl h, ?_⟩
        · rintro ⟨src, hsrc⟩
          simp [initFinish] at hsrc
        · intro _ b hb1 hb2
          exact absurd ⟨b, hb1, hb2⟩ hb
        · intro _ _ _
          simp [initFinish, alerts]
        · simp [initFinish, onLoadCalls]
      · rw [init_of_invalid OS env props s hf hb hi]
        refine ⟨⟨?_, fun h => absurd h hf⟩, fun h => absurd h hf, fun h => absurd h hf,
          ?_, fun _ _ h => absurd h hi, ?_, ?_⟩
        · rintro ⟨src, hsrc⟩
          simp at hsrc
        · intro _ b hb1 hb2
          exact absurd ⟨b, hb1, hb2⟩ hb
        · intro _ _ _
          simp [alerts]
        · simp [onLoadCalls]

/-! ## Failure reporting -/

/-- C4: on Android, for a source whose uri starts with "http", "file" or
"content", when `fetchPdfAsync` rejects with error `e`, `init` ends in its
`catch` block having called `fetchPdfAsync` exactly once, raised exactly one
alert, logged exactly `e` with `console.error`, and not invoked `onLoad`. -/
theorem fetch_failure_reported_once (env : Env) (props : Props) (s : State)
    (uri : String) (e : JsError)
    (hu : props.source.uri = some uri) (hs : HasScheme uri)
    (hrej : fetchPdfAsync env props.source = Settled.rejected e) :
    (init "android" env props s).exit = InitExit.caught ∧
    (init "android" env props s).trace =
      [Event.fetchPdfAsync props.source, Event.alert "Sorry, an error occurred.",
        Event.consoleError e] ∧
    alerts (init "android" env props s).trace = 1 ∧
    consoleErrors (init "android" env props s).trace = [e] ∧
    onLoadCalls (init "android" env props s).trace = 0 ∧
    fetchCalls (init "android" env props s).trace = [props.source] := by
  have hf : AndroidFetch "android" props.source :=
    ⟨rfl, uri, hu, hasScheme_ne_empty uri hs, hs⟩
  have hi := init_of_fetch "android" env props s hf
  rw [hrej] at hi
  simp only [] at hi
  rw [hi]
  simp [alerts, consoleErrors, onLoadCalls, fetchCalls]

/-- Witness of C4: the remote source on Android with a host whose request fails. -/
theorem fetch_failure_reported_once_witness :
    (propsOf remoteSource).source.uri = some "https://example.org/a.pdf" ∧
    HasScheme "https://example.org/a.pdf" ∧
    fetchPdfAsync hostDown (propsOf remoteSource).source =
      Settled.rejected "Network request failed" ∧
    (init "android" hostDown (propsOf remoteSource) initialState).exit = InitExit.caught ∧
    (init "android" hostDown (propsOf remoteSource) initialState).trace =
      [Event.fetchPdfAsync (propsOf remoteSource).source,
        Event.alert "Sorry, an error occurred.",
        Event.consoleError "Network request failed"] ∧
    alerts (init "android" hostDown (propsOf remoteSource) initialState).trace = 1 ∧
    consoleErrors (init "android" hostDown (propsOf remoteSource) initialState).trace =
      ["Network request failed"] ∧
    onLoadCalls (init "android" hostDown (propsOf remoteSource) initialState).trace = 0 ∧
    fetchCalls (init "android" hostDown (propsOf remoteSource) initialState).trace =
      [(propsOf remoteSource).source] :=
  ⟨rfl, Or.inl (by decide), rfl,
    fetch_failure_reported_once hostDown (propsOf remoteSource) initialState
      "https://example.org/a.pdf" "Network request failed" rfl (Or.inl (by decide)) rfl⟩

/-- C3 as stated fails: on Android a source with neither a locator nor a
payload makes `init` raise one alert but log nothing with `console.error`, and
on iOS the same source makes `init` raise no alert and log nothing. -/
theorem validation_failure_not_logged :
    NoUsableLocator "android" emptySource ∧ NoEmbeddedPayload emptySource ∧
    alerts (init "android" hostUp (propsOf emptySource) initialState).trace = 1 ∧
    consoleErrors (init "android" hostUp (propsOf emptySource) initialState).trace = [] ∧
    NoUsableLocator "ios" emptySource ∧
    alerts (init "ios" hostUp (propsOf emptySource) initialState).trace = 0 ∧
    consoleErrors (init "ios" hostUp (propsOf emptySource) initialState).trace = [] :=
  ⟨Or.inl rfl, Or.inl rfl, by decide, by decide, Or.inl rfl, by decide, by decide⟩

/-- C3, amended: on every platform other than iOS, for a source with neither a
usable locator nor an embedded payload, `init` ends at the alert
"source props is not correct", which is its only effect: exactly one alert,
nothing logged with `console.error`, no fetch, no `onLoad`, and `ready` and
`data` stay as they were. -/
theorem validation_failure_alert_only (OS : String) (env : Env) (props : Props) (s : State)
    (hi : OS ≠ "ios")
    (hl : NoUsableLocator OS props.source) (hp : NoEmbeddedPayload props.source) :
    (init OS env props s).exit = InitExit.invalidSource ∧
    (init OS env props s).trace = [Event.alert "source props is not correct"] ∧
    alerts (init OS env props s).trace = 1 ∧
    consoleErrors (init OS env props s).trace = [] ∧
    fetchCalls (init OS env props s).trace = [] ∧
    onLoadCalls (init OS env props s).trace = 0 ∧
    (init OS env props s).state.ready = s.ready ∧
    (init OS env props s).state.data = s.data := by
  have hf := not_androidFetch_of_noUsableLocator OS props.source hl
  have hb := not_validBase64_of_noEmbeddedPayload props.source hp
  rw [init_of_invalid OS env props s hf hb hi]
  simp [alerts, consoleErrors, fetchCalls, onLoadCalls]

/-- Witness of the amended C3: the empty source on Android. -/
theorem validation_failure_alert_only_witness :
    "android" ≠ "ios" ∧
    NoUsableLocator "android" (propsOf emptySource).source ∧
    NoEmbeddedPayload (propsOf emptySource).source ∧
    (init "android" hostUp (propsOf emptySource) initialState).trace =
      [Event.alert "source props is not correct"] ∧
    alerts (init "android" hostUp (propsOf emptySource) initialState).trace = 1 ∧
    consoleErrors (init "android" hostUp (propsOf emptySource) initialState).trace = [] :=
  have h := validation_failure_alert_only "android" hostUp (propsOf emptySource) initialState
    (by decide) (Or.inl rfl) (Or.inl rfl)
  ⟨by decide, Or.inl rfl, Or.inl rfl, h.2.1, h.2.2.1, h.2.2.2.1⟩

/-! ## After a failure -/

theorem fireLoad_eq_none (bundle : String) (props : Props) (s : State)
    (hd : s.data = none) : fireLoad bundle props s = none := by
  unfold fireLoad
  rw [webViewOf_render]
  simp [hd, truthy]

theorem loadReach_of_no_data (bundle : String) (s t : State) (hd : s.data = none)
    (h : LoadReach bundle s t) : t = s := by
  induction h with
  | refl => rfl
  | step props s1 s2 tr _ hfire ih =>
      subst ih
      rw [fireLoad_eq_none bundle props _ hd] at hfire
      cases hfire

/-- C5: when `init`, run at mount, ends at the validation alert or in the
`catch` block, the state still has `ready` false and `data` undefined, `render`
returns no `WebView` for that state (whatever the props), no load event can
fire, and every state reached from it by load events of the rendered `WebView`
has `ready` false. -/
theorem failure_never_ready (OS bundle : String) (env : Env) (props : Props)
    (h : (init OS env props initialState).exit = InitExit.invalidSource ∨
      (init OS env props initialState).exit = InitExit.caught) :
    (init OS env props initialState).state.ready = false ∧
    (init OS env props initialState).state.data = none ∧
    (∀ q w, Child.webView w ∉ (render bundle q (init OS env props initialState).state).children) ∧
    (∀ q, fireLoad bundle q (init OS env props initialState).state = none) ∧
    (∀ t, LoadReach bundle (init OS env props initialState).state t → t.ready = false) := by
  have hst : (init OS env props initialState).state.ready = false ∧
      (init OS env props initialState).state.data = none := by
    by_cases hf : AndroidFetch OS props.source
    · have hi := init_of_fetch OS env props initialState hf
      cases hp : fetchPdfAsync env props.source with
      | resolved d =>
          rw [hp] at hi; simp only [] at hi
          rw [hi] at h
          simp [initFinish] at h
      | rejected e =>
          rw [hp] at hi; simp only [] at hi
          rw [hi]
          simp [initialState]
      | pending =>
          rw [hp] at hi; simp only [] at hi
          rw [hi] at h
          simp at h
    · by_cases hb : ValidBase64 props.source
      · rw [init_of_base64 OS env props initialState hf hb] at h
        simp [initFinish] at h
      · by_cases hi : OS = "ios"
        · subst hi
          rw [init_of_ios env props initialState hb] at h
          simp [initFinish] at h
        · rw [init_of_invalid OS env props initialState hf hb hi]
          simp [initialState]
  refine ⟨hst.1, hst.2, ?_, ?_, ?_⟩
  · intro q w hw
    rw [children_render] at hw
    simp only [hst.2, truthy, Bool.false_eq_true, false_and, and_false, if_false] at hw
    split_ifs at hw <;> simp at hw
  · intro q
    exact fireLoad_eq_none bundle q _ hst.2
  · intro t ht
    rw [loadReach_of_no_data bundle _ t hst.2 ht]
    exact hst.1

/-- Witness of C5: the empty source on Android ends at the validation alert. -/
theorem failure_never_ready_witness :
    (init "android" hostUp (propsOf emptySource) initialState).exit = InitExit.invalidSource ∧
    (init "android" hostUp (propsOf emptySource) initialState).state.ready = false ∧
    (init "android" hostUp (propsOf emptySource) initialState).state.data = none :=
  ⟨by decide,
    (failure_never_ready "android" "" hostUp (propsOf emptySource) (Or.inl (by decide))).1,
    (failure_never_ready "android" "" hostUp (propsOf emptySource) (Or.inl (by decide))).2.1⟩

/-! ## The lifecycle with an embedded payload -/

/-- C2, evaluated on the code: for the source with a valid embedded payload
and an `onLoad` callback, `init` run at mount sets `ready` to true and invokes
`onLoad` once, and the load event of the `WebView` that `render` produces for
the resulting state invokes it a second time, on iOS (through the wrapper of
the iOS branch) and on Android (through `onLoad={onLoad}`): two calls where
the claim says exactly one.  The sibling path, a remote uri on iOS, invokes
`onLoad` once over the same lifecycle, because `init` leaves `ready` false and
only the wrapper calls it. -/
theorem onLoad_fires_twice :
    ValidBase64 (propsOf embeddedSource).source ∧
    ¬ AndroidFetch "ios" (propsOf embeddedSource).source ∧
    ¬ AndroidFetch "android" (propsOf embeddedSource).source ∧
    (lifecycle "ios" "" hostUp (propsOf embeddedSource)).1.ready = true ∧
    onLoadCalls (init "ios" hostUp (propsOf embeddedSource) initialState).trace = 1 ∧
    onLoadCalls (lifecycle "ios" "" hostUp (propsOf embeddedSource)).2 = 2 ∧
    (lifecycle "android" "" hostUp (propsOf embeddedSource)).1.ready = true ∧
    onLoadCalls (init "android" hostUp (propsOf embeddedSource) initialState).trace = 1 ∧
    onLoadCalls (lifecycle "android" "" hostUp (propsOf embeddedSource)).2 = 2 ∧
    onLoadCalls (init "ios" hostUp (propsOf remoteSource) initialState).trace = 0 ∧
    onLoadCalls (lifecycle "ios" "" hostUp (propsOf remoteSource)).2 = 1 :=
  ⟨⟨_, rfl, by decide⟩, fun h => absurd h.1 (by decide),
    fun h => Exists.elim h.2 (fun _ hu => Option.noConfusion hu.1),
    by decide, by decide, by decide, by decide, by decide, by decide, by decide, by decide⟩

/-! ## A platform that is neither iOS nor Android -/

/-- C10: on a platform that is neither iOS nor Android, for a source whose
base64 starts with "data", `init` sets `ready` to true and `data` to the
payload and invokes `onLoad` (once, when the caller supplied one), yet `render`
for the resulting state returns the bare container with no child at all:
neither a `WebView` nor the `Loader`.  More generally, in any state whose `ios`
and `android` flags are both false, `render` returns no `WebView`. -/
theorem other_platform_ready_but_bare (OS bundle : String) (env : Env) (props : Props)
    (s : State) (b : String) (hi : OS ≠ "ios") (ha : OS ≠ "android")
    (hb : props.source.base64 = some b) (hd : startsWith b "data" = true) :
    (init OS env props s).state.ready = true ∧
    (init OS env props s).state.data = some b ∧
    onLoadCalls (init OS env props s).trace = (if props.onLoad = true then 1 else 0) ∧
    (∀ q, (render bundle q (init OS env props s).state).children = []) ∧
    (∀ (q : Props) (t : State), t.ios = false → t.android = false →
      webViewOf (render bundle q t) = none ∧
      ∀ w, Child.webView w ∉ (render bundle q t).children) := by
  have hf : ¬ AndroidFetch OS props.source := fun h => ha h.1
  rw [init_of_base64 OS env props s hf ⟨b, hb, hd⟩]
  refine ⟨by simp [initFinish], by simp [initFinish, hb], ?_, ?_, ?_⟩
  · cases ho : props.onLoad <;> simp [initFinish, onLoadCalls, ho]
  · intro q
    rw [no_webView_of_no_platform bundle q _ (by simp [initFinish, hi])
      (by simp [initFinish, ha])]
    simp [initFinish]
  · intro q t hti hta
    constructor
    · rw [webViewOf_render]
      simp [hti, hta]
    · intro w hw
      rw [no_webView_of_no_platform bundle q t hti hta] at hw
      split_ifs at hw <;> simp at hw

/-- Witness of C10: the embedded source on the platform "web". -/
theorem other_platform_ready_but_bare_witness :
    (init "web" hostUp (propsOf embeddedSource) initialState).state.ready = true ∧
    onLoadCalls (init "web" hostUp (propsOf embeddedSource) initialState).trace = 1 ∧
    (render "" (propsOf embeddedSource)
      (init "web" hostUp (propsOf embeddedSource) initialState).state).children = [] :=
  have h := other_platform_ready_but_bare "web" "" hostUp (propsOf embeddedSource)
    initialState "data:application/pdf;base64,JVBERi0xLjQ=" (by decide) (by decide) rfl
    (by decide)
  ⟨h.1, h.2.2.1, h.2.2.2.1 (propsOf embeddedSource)⟩

/-! ## Readiness implies data -/

theorem init_state_cases (OS : String) (env : Env) (props : Props) (s : State) :
    (init OS env props s).state =
        { s with ios := decide (OS = "ios"), android := decide (OS = "android") } ∨
    ∃ ready data, (ready = true → truthy data = true) ∧
      (init OS env props s).state =
        { ready := ready, android := decide (OS = "android"), ios := decide (OS = "ios"),
          data := data } := by
  by_cases hf : AndroidFetch OS props.source
  · have hi := init_of_fetch OS env props s hf
    cases hp : fetchPdfAsync env props.source with
    | resolved d =>
        rw [hp] at hi; simp only [] at hi
        right
        refine ⟨decide (d ≠ ""), some d, ?_, by rw [hi]; rfl⟩
        intro h
        simpa [truthy] using h
    | rejected e =>
        rw [hp] at hi; simp only [] at hi
        left; rw [hi]
    | pending =>
        rw [hp] at hi; simp only [] at hi
        left; rw [hi]
  · by_cases hb : ValidBase64 props.source
    · right
      obtain ⟨b, hb1, hb2⟩ := hb
      refine ⟨true, some b, ?_, ?_⟩
      · intro _
        simp [truthy, startsWith_ne_empty b "data" (by decide) hb2]
      · rw [init_of_base64 OS env props s hf ⟨b, hb1, hb2⟩, hb1]
        rfl
    · by_cases hi : OS = "ios"
      · subst hi
        right
        refine ⟨false, props.source.uri, fun h => Bool.noConfusion h, ?_⟩
        rw [init_of_ios env props s hb]
        rfl
      · left
        rw [init_of_invalid OS env props s hf hb hi]

theorem inv_flags (OS : String) (s : State) (h : Inv OS s) :
    Inv OS { s with ios := decide (OS = "ios"), android := decide (OS = "android") } := by
  obtain ⟨_, _, h3⟩ := h
  refine ⟨fun h => by simpa using h, fun h => by simpa using h, fun hr => ?_⟩
  exact ⟨(h3 hr).1, rfl, rfl⟩

theorem inv_init (OS : String) (env : Env) (props : Props) (s : State) (h : Inv OS s) :
    Inv OS (init OS env props s).state := by
  rcases init_state_cases OS env props s with h1 | ⟨ready, data, hrd, h1⟩
  · rw [h1]
    exact inv_flags OS s h
  · rw [h1]
    exact ⟨fun h => by simpa using h, fun h => by simpa using h, fun hr => ⟨hrd hr, rfl, rfl⟩⟩

theorem inv_load (OS bundle : String) (props : Props) (s s1 : State) (tr : List Event)
    (h : Inv OS s) (hfire : fireLoad bundle props s = some (s1, tr)) : Inv OS s1 := by
  unfold fireLoad at hfire
  rw [webViewOf_render] at hfire
  by_cases c1 : truthy s.data = true ∧ s.ios = true
  · rw [if_pos c1] at hfire
    simp only [iosWebView, iosOnLoad, Option.some.injEq, Prod.mk.injEq] at hfire
    obtain ⟨hs, _⟩ := hfire
    subst hs
    have hos : OS = "ios" := h.1 c1.2
    refine ⟨h.1, h.2.1, fun _ => ⟨c1.1, ?_, ?_⟩⟩
    · simp [c1.2, hos]
    · cases ha : s.android with
      | false => simp [hos]
      | true =>
          have := h.2.1 ha
          rw [hos] at this
          exact absurd this (by decide)
  · rw [if_neg c1] at hfire
    by_cases c2 : s.ready = true ∧ truthy s.data = true ∧ s.android = true
    · rw [if_pos c2] at hfire
      simp only [androidWebView, Option.some.injEq, Prod.mk.injEq] at hfire
      obtain ⟨hs, _⟩ := hfire
      subst hs
      exact h
    · rw [if_neg c2] at hfire
      cases hfire

theorem reachable_inv (OS bundle : String) (s : State) (h : Reachable OS bundle s) :
    Inv OS s := by
  induction h with
  | mount =>
      exact ⟨fun h => Bool.noConfusion h, fun h => Bool.noConfusion h,
        fun h => Bool.noConfusion h⟩
  | flags s _ ih => exact inv_flags OS s ih
  | init env props s _ ih => exact inv_init OS env props s ih
  | load props s s1 tr _ hfire ih => exact inv_load OS bundle props s s1 tr ih hfire

/-- C1: in every component state reachable from the state at mount by runs of
`init` (any source, any host behaviour, on the given platform) and by load
events of the `WebView` that `render` installed, if `ready` is true then
`data` is a non-empty string. -/
theorem ready_implies_data (OS bundle : String) (s : State)
    (h : Reachable OS bundle s) (hr : s.ready = true) :
    ∃ d, s.data = some d ∧ d ≠ "" :=
  (truthy_eq_true_iff s.data).1 ((reachable_inv OS bundle s h).2.2 hr).1

/-- Witness of C1: the state after `init` on iOS followed by a load event of
the rendered `WebView`, for the remote source. -/
theorem ready_implies_data_witness :
    ∃ d, (iosOnLoad (propsOf remoteSource)
        (init "ios" hostUp (propsOf remoteSource) initialState).state).1.data = some d ∧
      d ≠ "" :=
  ready_implies_data "ios" ""
    (iosOnLoad (propsOf remoteSource)
      (init "ios" hostUp (propsOf remoteSource) initialState).state).1
    (Reachable.load (propsOf remoteSource)
      (init "ios" hostUp (propsOf remoteSource) initialState).state
      (iosOnLoad (propsOf remoteSource)
        (init "ios" hostUp (propsOf remoteSource) initialState).state).1
      (iosOnLoad (propsOf remoteSource)
        (init "ios" hostUp (propsOf remoteSource) initialState).state).2
      (Reachable.init hostUp (propsOf remoteSource) initialState Reachable.mount)
      (by decide))
    (by decide)

/-! ## The loader -/

/-- C6: in every state reachable on iOS or on Android and for every props
value, the output of `render` contains the `Loader` if and only if `noLoader`
is false and the output contains no `WebView`; with `noLoader` true the
`Loader` is not rendered (in any state). -/
theorem loader_iff_no_webView (OS bundle : String) (s : State) (props : Props)
    (hos : OS = "ios" ∨ OS = "android") (h : Reachable OS bundle s) :
    (Child.loader ∈ (render bundle props s).children ↔
      (props.noLoader = false ∧ ∀ w, Child.webView w ∉ (render bundle props s).children)) ∧
    (∀ t : State, props.noLoader = true → Child.loader ∉ (render bundle props t).children) := by
  have hinv := reachable_inv OS bundle s h
  constructor
  · rw [children_render]
    by_cases c1 : truthy s.data = true ∧ s.ios = true
    · rw [if_pos c1]
      simp
    · rw [if_neg c1]
      by_cases c2 : s.ready = true ∧ truthy s.data = true ∧ s.android = true
      · rw [if_pos c2]
        simp
      · rw [if_neg c2]
        by_cases c3 : props.noLoader = false ∧ s.ready = false
        · rw [if_pos c3]
          simp [c3.1]
        · rw [if_neg c3]
          simp only [List.not_mem_nil, false_iff, not_and, not_forall, not_not]
          intro hn
          exfalso
          have hr : s.ready = true := by
            cases hr : s.ready
            · exact absurd ⟨hn, hr⟩ c3
            · rfl
          obtain ⟨hd, hi, ha⟩ := hinv.2.2 hr
          rcases hos with hos | hos
          · exact c1 ⟨hd, by rw [hi, hos]; rfl⟩
          · exact c2 ⟨hr, hd, by rw [ha, hos]; rfl⟩
  · intro t hn
    rw [children_render]
    split_ifs with c1 c2 c3
    · simp
    · simp
    · rw [hn] at c3
      exact absurd c3.1 (by decide)
    · simp

/-- Witness of C6: the state after `init` on Android for the remote source. -/
theorem loader_iff_no_webView_witness :
    (Child.loader ∈ (render "" (propsOf remoteSource)
        (init "android" hostUp (propsOf remoteSource) initialState).state).children ↔
      ((propsOf remoteSource).noLoader = false ∧
        ∀ w, Child.webView w ∉ (render "" (propsOf remoteSource)
          (init "android" hostUp (propsOf remoteSource) initialState).state).children)) :=
  (loader_iff_no_webView "android" ""
    (init "android" hostUp (propsOf remoteSource) initialState).state (propsOf remoteSource)
    (Or.inr rfl)
    (Reachable.init hostUp (propsOf remoteSource) initialState Reachable.mount)).1

set_option maxRecDepth 100000 in
theorem viewerHtmlHead_split : viewerHtmlHead = beforeFileDiv ++ fileDivOpen := by decide

theorem viewerHtmlMid_split :
    viewerHtmlMid = fileDivClose ++ betweenFileDivAndScript ++ scriptOpen := by decide

theorem viewerHtmlTail_split : viewerHtmlTail = scriptClose ++ afterScript := by decide

set_option maxRecDepth 100000 in
theorem startsInside_head :
    startsInside "data-file=\"".data (beforeFileDiv ++ "<div id=\"file\" ").data = false := by
  decide

set_option maxRecDepth 100000 in
theorem occurrences_script_fixed :
    occurrences "<script".data
      (beforeFileDiv ++ betweenFileDivAndScript ++ afterScript).data = 0 := by
  decide

/-! ## The generated HTML -/

theorem isPrefixOf_append_of_length (pat a b : List Char) (h : pat.length ≤ a.length) :
    pat.isPrefixOf (a ++ b) = pat.isPrefixOf a := by
  induction pat generalizing a with
  | nil => simp
  | cons x xs ih =>
      cases a with
      | nil => simp at h
      | cons y ys =>
          have h2 : xs.length ≤ ys.length := by simpa using h
          simp [List.isPrefixOf, ih ys h2]

theorem isPrefixOf_self_append (pat rest : List Char) :
    pat.isPrefixOf (pat ++ rest) = true := by
  induction pat with
  | nil => simp
  | cons x xs ih => simp [List.isPrefixOf, ih]

theorem afterFirst_append (x : Char) (xs pre rest : List Char)
    (h : startsInside (x :: xs) pre = false) :
    afterFirst (x :: xs) (pre ++ (x :: xs) ++ rest) = some rest := by
  induction pre with
  | nil =>
      have hp := isPrefixOf_self_append (x :: xs) rest
      simp only [List.nil_append, List.cons_append] at hp ⊢
      simp only [afterFirst, hp, if_true]
      simp
  | cons c cs ih =>
      simp only [startsInside, Bool.or_eq_false_iff] at h
      have h1 : (x :: xs).isPrefixOf (c :: cs ++ (x :: xs) ++ rest) = false := by
        rw [isPrefixOf_append_of_length _ _ _ (by simp; omega)]
        exact h.1
      have h2 : c :: cs ++ (x :: xs) ++ rest = c :: (cs ++ (x :: xs) ++ rest) := by simp
      rw [h2] at h1 ⊢
      simp only [afterFirst, h1, Bool.false_eq_true, if_false]
      exact ih h.2

theorem takeWhile_until_quote (p more : List Char) (h : '"' ∉ p) :
    (p ++ '"' :: more).takeWhile (fun c => c != '"') = p := by
  induction p with
  | nil => simp
  | cons c cs ih =>
      have hc : c ≠ '"' := fun e => h (by simp [e])
      have hcs : '"' ∉ cs := fun e => h (by simp [e])
      have hb : (c != '"') = true := by simpa using hc
      rw [List.cons_append, List.takeWhile_cons, hb, if_pos rfl, ih hcs]

theorem viewerHtml_data (bundle p : String) :
    (viewerHtml bundle p).data =
      (beforeFileDiv ++ "<div id=\"file\" ").data ++ "data-file=\"".data ++
        (p.data ++ '"' :: ("></div>" ++ betweenFileDivAndScript ++ scriptOpen ++ bundle ++
          viewerHtmlTail).data) := by
  have h1 : viewerHtmlHead.data =
      (beforeFileDiv ++ "<div id=\"file\" ").data ++ "data-file=\"".data := by
    rw [viewerHtmlHead_split]
    have : fileDivOpen = "<div id=\"file\" " ++ "data-file=\"" := by decide
    rw [this]
    simp [String.data_append]
  have h2 : viewerHtmlMid.data =
      '"' :: ("></div>" ++ betweenFileDivAndScript ++ scriptOpen).data := by
    rw [viewerHtmlMid_split]
    have : fileDivClose = "\"" ++ "></div>" := by decide
    rw [this]
    simp [String.data_append]
  unfold viewerHtml
  simp only [String.data_append, h1, h2, List.append_assoc, List.cons_append]

/-- C8: for every payload `p` without a double quote, `viewerHtml(p)` contains
the element `<div id="file" data-file="p"></div>`, and the text between the
first occurrence of `data-file="` in the output and the next double quote is
`p`.  The output is the fixed text before that element, the element, fixed
text, the script opening tag, the bundle text unchanged, the script closing tag
and fixed text; the opening `<script` occurs nowhere in the three fixed texts,
so the template has a single script element, after the payload element. -/
theorem viewerHtml_embeds_payload (bundle p : String) (hq : '"' ∉ p.data) :
    (fileDiv p).data <:+: (viewerHtml bundle p).data ∧
    fileDiv p = "<div id=\"file\" data-file=\"" ++ p ++ "\"></div>" ∧
    dataFileAttribute (viewerHtml bundle p) = some p ∧
    viewerHtml bundle p =
      beforeFileDiv ++ fileDiv p ++ betweenFileDivAndScript ++
        scriptOpen ++ bundle ++ scriptClose ++ afterScript ∧
    occurrences "<script".data
      (beforeFileDiv ++ betweenFileDivAndScript ++ afterScript).data = 0 := by
  have hshape : viewerHtml bundle p =
      beforeFileDiv ++ fileDiv p ++ betweenFileDivAndScript ++
        scriptOpen ++ bundle ++ scriptClose ++ afterScript := by
    unfold viewerHtml fileDiv
    rw [viewerHtmlHead_split, viewerHtmlMid_split, viewerHtmlTail_split]
    apply String.ext
    simp only [String.data_append, List.append_assoc]
  refine ⟨?_, rfl, ?_, hshape, occurrences_script_fixed⟩
  · rw [hshape]
    refine ⟨beforeFileDiv.data,
      (betweenFileDivAndScript ++ scriptOpen ++ bundle ++ scriptClose ++ afterScript).data, ?_⟩
    simp only [String.data_append, List.append_assoc]
  · unfold dataFileAttribute
    rw [viewerHtml_data]
    have hpat : "data-file=\"".data = 'd' :: "ata-file=\"".data := by decide
    have h := afterFirst_append 'd' "ata-file=\"".data
      (beforeFileDiv ++ "<div id=\"file\" ").data
      (p.data ++ '"' :: ("></div>" ++ betweenFileDivAndScript ++ scriptOpen ++ bundle ++
          viewerHtmlTail).data)
      (by rw [← hpat]; exact startsInside_head)
    rw [← hpat] at h
    rw [h]
    simp only [takeWhile_until_quote _ _ hq]
    simp

/-- Witness of C8: the payload `data:application/pdf;base64,JVBERi0xLjQ=` and
a one-line bundle. -/
theorem viewerHtml_embeds_payload_witness :
    dataFileAttribute (viewerHtml "main();" "data:application/pdf;base64,JVBERi0xLjQ=") =
      some "data:application/pdf;base64,JVBERi0xLjQ=" :=
  (viewerHtml_embeds_payload "main();" "data:application/pdf;base64,JVBERi0xLjQ="
    (by decide)).2.2.1

end PdfReader
